import Mathlib

/-!
Verification development for the molvis scene/command bridge
(src/python/src/molvis/scene.py and src/python/src/molvis/commands/*).

Python values that travel through the bridge (JSON-decodable payloads,
frame dictionaries, command parameters) are modelled by the inductive
type `Val`; Python `dict`s become association lists whose keys are
unique (a Python dict can never hold two entries with the same key), so
deletion is modelled by filtering the key out and assignment by
replace-or-append.
-/

namespace Molvis


/-- Model of a Python/JSON value as it occurs on the bridge: `None`,
booleans, integers, strings, lists and string-keyed dictionaries.
(Floats play no role in any of the verified properties and are omitted;
binary buffers are carried outside the JSON payload.) -/
inductive Val where
  | vnull : Val
  | vbool : Bool → Val
  | vint : Int → Val
  | vstr : String → Val
  | vlist : List Val → Val
  | vdict : List (String × Val) → Val

/-- Dictionary lookup (`d[k]` / `k in d`): first entry with the key.
With unique keys this is exactly Python dict lookup. -/
def dlookupV : List (String × Val) → String → Option Val
  | [], _ => none
  | (k', v) :: rest, k => if k' = k then some v else dlookupV rest k

/-- Membership test `k in d`. -/
def hasK (d : List (String × Val)) (k : String) : Bool :=
  (dlookupV d k).isSome

/-- Dictionary assignment `d[k] = v`: replaces the value in place when
the key is present (Python keeps the insertion position), appends a new
entry otherwise. -/
def dsetV : List (String × Val) → String → Val → List (String × Val)
  | [], k, v => [(k, v)]
  | (k', v') :: rest, k, v =>
      if k' = k then (k', v) :: rest else (k', v') :: dsetV rest k v

/-- Dictionary deletion `d.pop(k, None)` / `del d[k]`: removes the
entry for `k` (Python dict keys are unique, so removing every entry
with the key is the same operation). -/
def dpopV : List (String × Val) → String → List (String × Val)
  | [], _ => []
  | (k', v) :: rest, k =>
      if k' = k then dpopV rest k else (k', v) :: dpopV rest k

/-! ## Request correlator (scene.py)

The scene's `_response_queue` maps integer request ids to deques of
response dicts.  It is modelled as an association list with integer
keys (again with the unique-key dict discipline). -/

/-- Model of `self._response_queue`: request id → list of queued
response dicts (a `deque`, appended at the right, popped at the left). -/
abbrev RQueue := List (Int × List Val)

/-- Queue lookup by request id. -/
def qlookup : RQueue → Int → Option (List Val)
  | [], _ => none
  | (k', v) :: rest, k => if k' = k then some v else qlookup rest k

/-- Queue assignment `self._response_queue[request_id] = queue`. -/
def qset : RQueue → Int → List Val → RQueue
  | [], k, v => [(k, v)]
  | (k', v') :: rest, k, v =>
      if k' = k then (k', v) :: rest else (k', v') :: qset rest k v

/-- Queue removal `self._response_queue.pop(request_id, None)`. -/
def qpop : RQueue → Int → RQueue
  | [], _ => []
  | (k', v) :: rest, k =>
      if k' = k then qpop rest k else (k', v) :: qpop rest k

/-- Mutation `self._response_queue[request_id].append(response)`:
appends `v` to the deque registered under `rid` (used only when the
slot exists). -/
def qappend : RQueue → Int → Val → RQueue
  | [], _, _ => []
  | (k', l) :: rest, rid, v =>
      if k' = rid then (k', l ++ [v]) :: qappend rest rid v
      else (k', l) :: qappend rest rid v

/-- Python dict-key coercion for response ids: `_response_queue` keys
are `int`, and Python's `x in dict` uses `==`, under which `True == 1`
and `False == 0`.  Strings, lists, dicts and `None` never equal an
integer key. -/
def pyKeyInt : Val → Option Int
  | .vint n => some n
  | .vbool b => some (if b then 1 else 0)
  | _ => none

/-- Inbound payload of `_handle_custom_msg`.  The transport hands over
bytes, text, an already-parsed dict, or something unexpected.  For
bytes and text the external `content.decode('utf-8')` / `json.loads`
step is embedded by its outcome: `Except.error` for a
`UnicodeDecodeError`/`json.JSONDecodeError`, `Except.ok v` for a parse
producing the JSON value `v` (not necessarily a mapping). -/
inductive Content where
  | bytes : Except Unit Val → Content
  | str : Except Unit Val → Content
  | dict : List (String × Val) → Content
  | other : Content

/-- Model of the exceptions the handler body can raise (all of which
the code catches and logs): decode failures and attribute errors such
as calling `.get` on a non-mapping. -/
inductive PyErr where
  | decodeError : PyErr
  | attributeError : PyErr
  | typeError : PyErr
  | valueError : String → PyErr

/-- Request id under which `_handle_custom_msg` can file a response
dict: `request_id = response.get("id")` must be present and not `None`
(`if request_id is None: return`), and the membership test
`request_id in self._response_queue` can only succeed when the id
equals one of the queue's integer keys (`pyKeyInt`); a non-integer id
always misses and is logged and dropped, exactly like an unknown
integer id. -/
def respId (es : List (String × Val)) : Option Int :=
  match dlookupV es "id" with
  | none => none
  | some .vnull => none
  | some idv => pyKeyInt idv

/-- Body of `_handle_custom_msg` once the payload has been turned into
a response value: `response.get("id")` (an `AttributeError` when the
decoded value is not a mapping, caught by `except Exception`), the
missing-id early return, and the slot lookup/append/drop (via
`respId`, which bundles the id extraction with the integer-key
coercion of the membership test). -/
def handleResponse (q : RQueue) (v : Val) : Except PyErr RQueue :=
  match v with
  | .vdict es =>
      match respId es with
      | none => .ok q
      | some rid =>
          if (qlookup q rid).isSome then .ok (qappend q rid v)
          else .ok q
  | _ => .error .attributeError

/-- Body of `_handle_custom_msg` (the `try` block): decode the payload
in the shape the transport delivered it, then dispatch to
`handleResponse`.  A decode failure raises (to be caught); an
unexpected payload type logs a warning and returns normally. -/
def handleBody (q : RQueue) (c : Content) : Except PyErr RQueue :=
  match c with
  | .bytes (.error _) => .error .decodeError
  | .str (.error _) => .error .decodeError
  | .bytes (.ok v) => handleResponse q v
  | .str (.ok v) => handleResponse q v
  | .dict es => handleResponse q (.vdict es)
  | .other => .ok q

/-- Model of `Molvis._handle_custom_msg`: the whole body is wrapped in
`try/except` clauses that log and swallow every exception, so the
handler always returns normally; the scene state is unchanged on every
failure path.  The handler's `buffers` argument is never read by the
code and is omitted from the model. -/
def handle_custom_msg (q : RQueue) (c : Content) : RQueue :=
  match handleBody q c with
  | .ok q' => q'
  | .error _ => q

/-- Timeout failure raised by `_wait_for_response`:
`TimeoutError(f"Request {request_id} timed out after {timeout}s")`
names the request id. -/
structure TimeoutErr where
  request_id : Int

/-- Loop of `Molvis._wait_for_response`, with the thread interleaving
made explicit: `sched` holds, for each polling iteration, the inbound
payloads the transport delivers (via `_handle_custom_msg`, which runs
under the same lock) before that iteration's queue check; an exhausted
schedule means the deadline elapsed before the next check.  On every
exit path the `finally` block pops the waiting slot. -/
def wait_loop : List (List Content) → Int → RQueue → Except TimeoutErr Val × RQueue
  | [], rid, q => (.error ⟨rid⟩, qpop q rid)
  | batch :: rest, rid, q =>
      match qlookup (batch.foldl handle_custom_msg q) rid with
      | some (r :: tail) =>
          (.ok r, qpop (qset (batch.foldl handle_custom_msg q) rid tail) rid)
      | _ => wait_loop rest rid (batch.foldl handle_custom_msg q)

/-- Model of `Molvis._wait_for_response`: registers a fresh empty deque
as the waiting slot for `request_id`, then polls until a response is
queued or the deadline (the schedule) runs out. -/
def wait_for_response (sched : List (List Content)) (request_id : Int)
    (q : RQueue) : Except TimeoutErr Val × RQueue :=
  wait_loop sched request_id (qset q request_id [])

/-- Decoded value of an inbound payload, when decoding succeeds. -/
def decodedVal : Content → Option Val
  | .bytes (.ok v) => some v
  | .str (.ok v) => some v
  | .dict es => some (.vdict es)
  | _ => none

/-- Response delivered by an inbound payload for the request id `rid`:
`some` of the decoded response dict exactly when the payload decodes to
a mapping whose id matches `rid`. -/
def contentRespFor (c : Content) (rid : Int) : Option Val :=
  match decodedVal c with
  | some (.vdict es) => if respId es = some rid then some (.vdict es) else none
  | _ => none

/-- First response for `rid` delivered anywhere in the schedule, in
delivery order. -/
def firstDelivery (sched : List (List Content)) (rid : Int) : Option Val :=
  ((sched.map (fun b => b.filterMap (fun c => contentRespFor c rid))).flatten).head?

/-- Response for `rid` carried by one decoded value (helper mirroring
`contentRespFor` after decoding). -/
def vRespFor (v : Val) (rid : Int) : Option Val :=
  match v with
  | .vdict es => if respId es = some rid then some (.vdict es) else none
  | _ => none

/-- Handler action on a successfully decoded value, with the
`try/except` unwrapping applied. -/
def handleVal (q : RQueue) (v : Val) : RQueue :=
  match handleResponse q v with
  | .ok q' => q'
  | .error _ => q

/-! ## Request counter (`Molvis.send_cmd`) -/

/-- Request-id assignment in `Molvis.send_cmd`: under `_response_lock`
the scene's `_request_counter` is incremented and its new value is read
as the request id.  The lock makes the increment-and-read pair atomic,
so any set of concurrent `send_cmd` calls serializes into some order
and the sequential model below covers every interleaving.  Returns
`(request_id, new counter)`. -/
def send_cmd_issue (counter : Nat) : Nat × Nat := (counter + 1, counter + 1)

/-- Ids assigned by `n` successive `send_cmd` invocations starting from
counter value `c` (a fresh scene starts at `_request_counter = 0`). -/
def issued_ids : Nat → Nat → List Nat
  | _, 0 => []
  | c, n + 1 => (send_cmd_issue c).1 :: issued_ids (send_cmd_issue c).2 n

/-! ## Drawing commands (commands/drawing.py)

`draw_frame` is modelled on the dictionary produced by
`frame.to_dict()` (the `molpy` conversion itself is an external
collaborator); the `isinstance`/`to_dict` failures ahead of it are all
`TypeError`/`ValueError` raised before any send and play no role in
the claims below.  The successful result of the model is the list of
`(method, params)` pairs handed to `self.send` — the send happens only
after every validation has passed, so an error result means zero
transport sends. -/

/-- Shape of one row of `np.asarray(atoms_block["xyz"])` when the
array comes out 2-dimensional with second dimension 3: a 3-element
sequence whose entries are not themselves sequences (a nested sequence
would give the array a third dimension, or a ragged shape that
`np.asarray` rejects — both failing the `ndim == 2 and shape[1] == 3`
requirement). -/
def rowOf3 : Val → Option (Val × Val × Val)
  | .vlist [a, b, c] =>
      match a, b, c with
      | .vlist _, _, _ => none
      | _, .vlist _, _ => none
      | _, _, .vlist _ => none
      | a, b, c => some (a, b, c)
  | _ => none

/-- Interpretation of `np.asarray(value)` being an N×3 matrix
(`ndim == 2 and shape[1] == 3`): a nonempty list of 3-element scalar
rows.  The empty list gives `np.asarray([])` shape `(0,)` (`ndim == 1`)
and fails; every failure on this path surfaces as a `ValueError`
before anything is sent. -/
def asMatrixN3 : Val → Option (List (Val × Val × Val))
  | .vlist (r :: rs) => (r :: rs).mapM rowOf3
  | _ => none

/-- Column extraction `xyz_array[:, 0]` as a value list. -/
def colX (rows : List (Val × Val × Val)) : Val :=
  .vlist (rows.map (fun r => r.1))

/-- Column extraction `xyz_array[:, 1]`. -/
def colY (rows : List (Val × Val × Val)) : Val :=
  .vlist (rows.map (fun r => r.2.1))

/-- Column extraction `xyz_array[:, 2]`. -/
def colZ (rows : List (Val × Val × Val)) : Val :=
  .vlist (rows.map (fun r => r.2.2))

/-- Model of `DrawingCommandsMixin._normalize_atoms_block`: a
non-dict block is rejected; a block already exposing all of `x`, `y`,
`z` is returned unchanged; otherwise `xyz` must be present and an N×3
matrix, whose columns are written into `x`, `y`, `z` of a copy of the
block before the `xyz` key is popped. -/
def normalize_atoms_block (ab : Val) : Except PyErr (List (String × Val)) :=
  match ab with
  | .vdict es =>
      if hasK es "x" && hasK es "y" && hasK es "z" then .ok es
      else
        match dlookupV es "xyz" with
        | none =>
            .error (.valueError "Atoms block must contain x, y, z coordinates to draw")
        | some xyzV =>
            match asMatrixN3 xyzV with
            | none => .error (.valueError "Atoms xyz must be an Nx3 array")
            | some rows =>
                .ok (dpopV
                  (dsetV (dsetV (dsetV es "x" (colX rows)) "y" (colY rows))
                    "z" (colZ rows)) "xyz")
  | _ => .error (.valueError "Atoms block must be a dictionary")

/-- Loop of `draw_frame` over `frame_dict["blocks"].items()`: non-dict
blocks are skipped silently, the `atoms` block is replaced by its
normalized form, every other dict block is copied through unchanged
into the accumulating `draw_data["blocks"]` dict. -/
def buildDrawBlocks (atomsNorm : Val) :
    List (String × Val) → List (String × Val) → List (String × Val)
  | acc, [] => acc
  | acc, (name, v) :: rest =>
      match v with
      | .vdict es =>
          buildDrawBlocks atomsNorm
            (dsetV acc name (if name = "atoms" then atomsNorm else .vdict es)) rest
      | _ => buildDrawBlocks atomsNorm acc rest

/-- Model of `DrawingCommandsMixin.draw_frame` on the frame's
dictionary form: validates the `blocks`/`atoms` structure, normalizes
the atoms block, rebuilds the block dict, optionally attaches
metadata, and sends a single `draw_frame` command whose options carry
the atom/bond radii and the style string (which the code never
inspects).  The `.ok` payload is the list of `(method, params)` sends
performed. -/
def draw_frame (frame_dict : Val) (style : String) (atom_radius bond_radius : Val)
    (include_metadata : Bool) : Except PyErr (List (String × Val)) :=
  match frame_dict with
  | .vdict fes =>
      match dlookupV fes "blocks" with
      | none => .error (.valueError "Frame must contain blocks data")
      | some blocksV =>
          match blocksV with
          | .vdict bes =>
              match dlookupV bes "atoms" with
              | none => .error (.valueError "Frame must contain atoms block to draw")
              | some atomsV =>
                  match normalize_atoms_block atomsV with
                  | .error e => .error e
                  | .ok normAtoms =>
                      .ok [("draw_frame", Val.vdict
                        [("frameData", Val.vdict
                          (if include_metadata && hasK fes "metadata" then
                            [("blocks",
                              Val.vdict (buildDrawBlocks (.vdict normAtoms) [] bes)),
                             ("metadata", (dlookupV fes "metadata").getD .vnull)]
                          else
                            [("blocks",
                              Val.vdict (buildDrawBlocks (.vdict normAtoms) [] bes))])),
                         ("options", Val.vdict
                           [("atoms", Val.vdict [("radius", atom_radius)]),
                            ("bonds", Val.vdict [("radius", bond_radius)]),
                            ("style", Val.vstr style)])])]
          | _ => .error (.valueError "Frame blocks must be a dictionary")
  | _ => .error (.valueError "Frame to_dict must return a dict")

/-- Keys of a dict model. -/
def keysOf (d : List (String × Val)) : List String := d.map Prod.fst

/-- Length of a sequence-valued lookup result (for stating that `x`,
`y`, `z` come out as sequences of length N). -/
def vlen : Option Val → Option Nat
  | some (.vlist l) => some l.length
  | _ => none

/-- Number of transport sends recorded by a drawing-command result:
the `.ok` payload lists the sends, an error means nothing was sent. -/
def sentCount : Except PyErr (List (String × Val)) → Nat
  | .ok l => l.length
  | .error _ => 0

/-- Outgoing `frameData.blocks` dict of a `draw_frame` result. -/
def outBlocks (r : Except PyErr (List (String × Val))) : Option (List (String × Val)) :=
  match r with
  | .ok [(_, .vdict ps)] =>
      match dlookupV ps "frameData" with
      | some (.vdict fd) =>
          match dlookupV fd "blocks" with
          | some (.vdict bl) => some bl
          | _ => none
      | _ => none
  | _ => none

/-- Style string carried by the options of a sent command list. -/
def styleOfSend : List (String × Val) → Option Val
  | [(_, .vdict ps)] =>
      match dlookupV ps "options" with
      | some (.vdict os) => dlookupV os "style"
      | _ => none
  | _ => none

/-- Helper describing one block of `buildDrawBlocks` output: dict
blocks are passed through (atoms replaced by the normalized block),
anything else falls back to the accumulator. -/
def blockOut (a : Val) (n : String) (fallback : Option Val) : Option Val → Option Val
  | some (.vdict es) => some (if n = "atoms" then a else .vdict es)
  | _ => fallback

/-- Outcome of a drawing command that fails locally: a `ValueError`
(the spec's `ShapeError`) is raised synchronously and the send log is
empty — no partially-sent command. -/
def failsBeforeSend (r : Except PyErr (List (String × Val))) : Prop :=
  (∃ msg, r = .error (.valueError msg)) ∧ sentCount r = 0

/-- Style string carried by a drawing-command result, when a command
was sent. -/
def styleOfResult : Except PyErr (List (String × Val)) → Option Val
  | .ok sends => styleOfSend sends
  | .error _ => none

/-! ## Blocking call operations (commands/selection.py, frame.py,
snapshot.py)

Each blocking operation sends its command with
`wait_for_response=True` and then post-processes the response dict.
The response processing is modelled on the response value; the
`send_cmd`/`_wait_for_response` part is the correlator above.  None of
these operations defines or raises any peer-error exception: the only
failures are `TimeoutError` (from the correlator), `ValueError`
(snapshot's format check) and uncaught `AttributeError`/`TypeError`
on odd result shapes. -/

/-- Python truthiness (`if data.get("atoms")`): `None`, `False`, `0`,
empty strings and empty containers are falsy. -/
def truthy : Val → Bool
  | .vnull => false
  | .vbool b => b
  | .vint n => n != 0
  | .vstr s => s != ""
  | .vlist xs => !xs.isEmpty
  | .vdict es => !es.isEmpty

/-- Python `d.get(k)`: the value, or `None` when absent. -/
def pyGet (es : List (String × Val)) (k : String) : Val :=
  (dlookupV es k).getD .vnull

/-- Python `len(v)`: a `TypeError` for non-sized values. -/
def pyLen : Val → Except PyErr Nat
  | .vlist l => .ok l.length
  | .vstr s => .ok s.length
  | .vdict es => .ok es.length
  | _ => .error .typeError

/-- Shared result extraction of the blocking operations:
`data = response["result"] if isinstance(response, dict) and "result"
in response else response`. -/
def dataOf (response : Val) : Val :=
  match response with
  | .vdict res =>
      match dlookupV res "result" with
      | some r => r
      | none => .vdict res
  | _ => response

/-- One category check of `get_selected`:
`data.get(cat) and len(data[cat].get(key, [])) > 0`, with the
short-circuit `and` (a falsy category is skipped without touching it)
and the `AttributeError`/`TypeError` a truthy non-dict category or a
non-sized field would raise. -/
def categoryIncluded (ds : List (String × Val)) (cat key : String) :
    Except PyErr Bool :=
  if truthy (pyGet ds cat) then
    match pyGet ds cat with
    | .vdict ces =>
        match pyLen ((dlookupV ces key).getD (.vlist [])) with
        | .ok n => .ok (decide (0 < n))
        | .error e => .error e
    | _ => .error .attributeError
  else .ok false

/-- Model of `SelectionCommandsMixin.get_selected` after the response
arrives: extracts `result`, then includes the `atoms` block when
`data.get("atoms")` is truthy with `len(x) > 0` and the `bonds` block
when truthy with `len(bondId) > 0`, and builds the frame's blocks
dict (`mp.Frame(blocks=blocks)` is the external collaborator). -/
def get_selected_process (response : Val) : Except PyErr (List (String × Val)) :=
  match dataOf response with
  | .vdict ds => do
      let ia ← categoryIncluded ds "atoms" "x"
      let ib ← categoryIncluded ds "bonds" "bondId"
      .ok ((if ia then [("atoms", pyGet ds "atoms")] else []) ++
           (if ib then [("bonds", pyGet ds "bonds")] else []))
  | _ => .error .attributeError

/-- Model of `FrameCommandsMixin.dump_frame` after the response
arrives: a non-dict `data` or a missing `frameData` degrades to an
empty frame with a warning; otherwise the frame is built from
`frameData.get("blocks", {})` and `frameData.get("metadata", {})`.
Returns the `(blocks, metadata)` pair handed to `mp.Frame`. -/
def dump_frame_process (response : Val) : Except PyErr (Val × Val) :=
  match dataOf response with
  | .vdict ds =>
      match dlookupV ds "frameData" with
      | none => .ok (.vdict [], .vdict [])
      | some fdv =>
          match fdv with
          | .vdict fds =>
              .ok ((dlookupV fds "blocks").getD (.vdict []),
                   (dlookupV fds "metadata").getD (.vdict []))
          | _ => .error .attributeError
  | _ => .ok (.vdict [], .vdict [])

/-- Data-URI prefix strip of `snapshot`:
`base64_str.split(",", 1)[1]` when a comma is present. -/
def stripDataUriPrefix (s : String) : String :=
  match s.splitOn "," with
  | [] => s
  | [_] => s
  | _ :: rest => String.intercalate "," rest

/-- Model of `SnapshotCommandsMixin.snapshot` after the response
arrives: a non-dict `data` or a missing `data` field raises
`ValueError`; otherwise the optional data-URI prefix is stripped and
the string is handed to `base64.b64decode` (an external collaborator,
passed in as `b64`); a non-string payload makes the `"," in
base64_str` test raise `TypeError`. -/
def snapshot_process (b64 : String → List Nat) (response : Val) :
    Except PyErr (List Nat) :=
  match dataOf response with
  | .vdict ds =>
      match dlookupV ds "data" with
      | none => .error (.valueError "Unexpected response format from take_snapshot")
      | some (.vstr s) => .ok (b64 (stripDataUriPrefix s))
      | some _ => .error .typeError
  | _ => .error (.valueError "Unexpected response format from take_snapshot")

/-- Number of selected entities the code counts for one category:
`len(data[cat].get(key, []))` when the category is a dict, else 0. -/
def entityCount (ds : List (String × Val)) (cat key : String) : Nat :=
  match dlookupV ds cat with
  | some (.vdict ces) =>
      match (dlookupV ces key).getD (.vlist []) with
      | .vlist l => l.length
      | _ => 0
  | _ => 0

/-! ## Scene registry (scene.py)

`Molvis._scene_registry` is a class-level dict mapping scene names to
scene instances.  A scene instance is modelled by its name and session
id; registering, looking up, listing and closing mirror
`Molvis.__init__`, `Molvis.get_scene`, `Molvis.list_scenes` and
`Molvis.close`. -/

/-- Model of a `Molvis` instance as the registry sees it. -/
structure SceneObj where
  name : String
  sid : Nat

/-- Model of `Molvis._scene_registry`: name → scene (identified by its
session id). -/
abbrev SceneRegistry := List (String × Nat)

/-- Registry lookup by name (`name in registry` / `registry[name]`). -/
def rlookup : SceneRegistry → String → Option Nat
  | [], _ => none
  | (k', v) :: rest, k => if k' = k then some v else rlookup rest k

/-- Registry assignment `registry[name] = scene` (dict semantics:
replace in place, else append). -/
def rset : SceneRegistry → String → Nat → SceneRegistry
  | [], k, v => [(k, v)]
  | (k', v') :: rest, k, v =>
      if k' = k then (k', v) :: rest else (k', v') :: rset rest k v

/-- Registry deletion `del registry[name]`. -/
def rdel : SceneRegistry → String → SceneRegistry
  | [], _ => []
  | (k', v) :: rest, k =>
      if k' = k then rdel rest k else (k', v) :: rdel rest k

/-- Registration performed at the end of `Molvis.__init__`:
`Molvis._scene_registry[scene_name] = self`.  A name collision
silently overwrites the directory entry; the superseded scene is not
closed and nothing is sent. -/
def register_scene (reg : SceneRegistry) (s : SceneObj) : SceneRegistry :=
  rset reg s.name s.sid

/-- Failure raised by `Molvis.get_scene`:
`KeyError(f"Scene '{name}' not found. Available scenes: {available}")`
— the message names the missing scene and lists the currently
available names. -/
structure NotFoundErr where
  name : String
  available : List String

/-- Model of `Molvis.get_scene`: returns the registered scene or
raises `KeyError` listing the available names. -/
def get_scene (reg : SceneRegistry) (name : String) : Except NotFoundErr Nat :=
  match rlookup reg name with
  | none => .error ⟨name, reg.map Prod.fst⟩
  | some s => .ok s

/-- Model of `Molvis.list_scenes`: the registered names. -/
def list_scenes (reg : SceneRegistry) : List String := reg.map Prod.fst

/-- Model of `Molvis.close`: removes the registry entry under
`self.name` when one is present (whichever scene currently holds it),
then sends a `clear` command from the scene being closed.  Returns the
new registry and the `(method, sender session id)` sends. -/
def close_scene (reg : SceneRegistry) (s : SceneObj) :
    SceneRegistry × List (String × Nat) :=
  (if (rlookup reg s.name).isSome then rdel reg s.name else reg,
   [("clear", s.sid)])

/-! ## Theorems -/

theorem dlookupV_dsetV_self (d : List (String × Val)) (k : String) (v : Val) :
    dlookupV (dsetV d k v) k = some v := by
  induction d with
  | nil => simp [dsetV, dlookupV]
  | cons e rest ih =>
      obtain ⟨a, b⟩ := e
      by_cases h : a = k
      · simp [dsetV, h, dlookupV]
      · simp [dsetV, h, dlookupV, ih]

theorem dlookupV_dsetV_other (d : List (String × Val)) (k k' : String) (v : Val)
    (hne : k' ≠ k) : dlookupV (dsetV d k v) k' = dlookupV d k' := by
  induction d with
  | nil => simp [dsetV, dlookupV, Ne.symm hne]
  | cons e rest ih =>
      obtain ⟨a, b⟩ := e
      by_cases h : a = k
      · subst h
        simp [dsetV, dlookupV, Ne.symm hne]
      · simp [dsetV, h, dlookupV, ih]

theorem dlookupV_dpopV_self (d : List (String × Val)) (k : String) :
    dlookupV (dpopV d k) k = none := by
  induction d with
  | nil => simp [dpopV, dlookupV]
  | cons e rest ih =>
      obtain ⟨a, b⟩ := e
      by_cases h : a = k
      · simpa [dpopV, h] using ih
      · simpa [dpopV, h, dlookupV] using ih

theorem dlookupV_dpopV_other (d : List (String × Val)) (k k' : String)
    (hne : k' ≠ k) : dlookupV (dpopV d k) k' = dlookupV d k' := by
  induction d with
  | nil => simp [dpopV]
  | cons e rest ih =>
      obtain ⟨a, b⟩ := e
      by_cases h : a = k
      · subst h
        simp [dpopV, dlookupV, Ne.symm hne, ih]
      · simp [dpopV, h, dlookupV, ih]

theorem qlookup_qset_self (q : RQueue) (k : Int) (v : List Val) :
    qlookup (qset q k v) k = some v := by
  induction q with
  | nil => simp [qset, qlookup]
  | cons e rest ih =>
      obtain ⟨a, b⟩ := e
      by_cases h : a = k
      · simp [qset, h, qlookup]
      · simp [qset, h, qlookup, ih]

theorem qlookup_qpop_self (q : RQueue) (k : Int) :
    qlookup (qpop q k) k = none := by
  induction q with
  | nil => simp [qpop, qlookup]
  | cons e rest ih =>
      obtain ⟨a, b⟩ := e
      by_cases h : a = k
      · simpa [qpop, h] using ih
      · simpa [qpop, h, qlookup] using ih

theorem qlookup_qappend_self (q : RQueue) (rid : Int) (v : Val) :
    qlookup (qappend q rid v) rid = (qlookup q rid).map (fun l => l ++ [v]) := by
  induction q with
  | nil => simp [qappend, qlookup]
  | cons e rest ih =>
      obtain ⟨a, b⟩ := e
      by_cases h : a = rid
      · simp [qappend, h, qlookup]
      · simp [qappend, h, qlookup, ih]

theorem qlookup_qappend_other (q : RQueue) (rid rid' : Int) (v : Val)
    (hne : rid' ≠ rid) :
    qlookup (qappend q rid v) rid' = qlookup q rid' := by
  induction q with
  | nil => simp [qappend, qlookup]
  | cons e rest ih =>
      obtain ⟨a, b⟩ := e
      by_cases h : a = rid
      · subst h
        simp [qappend, qlookup, Ne.symm hne, ih]
      · simp [qappend, h, qlookup, ih]

theorem contentRespFor_eq (c : Content) (rid : Int) :
    contentRespFor c rid =
      match decodedVal c with
      | some v => vRespFor v rid
      | none => none := by
  cases c with
  | bytes p => cases p with
    | error e => rfl
    | ok v => cases v <;> rfl
  | str p => cases p with
    | error e => rfl
    | ok v => cases v <;> rfl
  | dict es => rfl
  | other => rfl

theorem handle_decomp (q : RQueue) (c : Content) :
    handle_custom_msg q c =
      match decodedVal c with
      | some v => handleVal q v
      | none => q := by
  cases c with
  | bytes p => cases p <;> rfl
  | str p => cases p <;> rfl
  | dict es => rfl
  | other => rfl

theorem handleResponse_vdict (q : RQueue) (es : List (String × Val)) :
    handleResponse q (Val.vdict es) =
      .ok (match respId es with
           | some rid =>
               if (qlookup q rid).isSome then qappend q rid (Val.vdict es)
               else q
           | none => q) := by
  simp only [handleResponse]
  cases hri : respId es with
  | none => rfl
  | some rid => rw [apply_ite Except.ok]

theorem handleVal_vdict (q : RQueue) (es : List (String × Val)) :
    handleVal q (Val.vdict es) =
      match respId es with
      | some rid =>
          if (qlookup q rid).isSome then qappend q rid (Val.vdict es) else q
      | none => q := by
  unfold handleVal
  rw [handleResponse_vdict]

theorem handleVal_match (q : RQueue) (v w : Val) (l : List Val) (rid : Int)
    (hm : vRespFor v rid = some w) (hl : qlookup q rid = some l) :
    handleVal q v = qappend q rid v ∧ w = v := by
  cases v with
  | vdict es =>
      by_cases hr : respId es = some rid
      · have hw : w = Val.vdict es := by
          simp [vRespFor, hr] at hm
          exact hm.symm
        refine ⟨?_, hw⟩
        rw [handleVal_vdict, hr]
        simp [hl]
      · simp [vRespFor, hr] at hm
  | vnull => simp [vRespFor] at hm
  | vbool b => simp [vRespFor] at hm
  | vint n => simp [vRespFor] at hm
  | vstr s => simp [vRespFor] at hm
  | vlist xs => simp [vRespFor] at hm

theorem handleVal_nondict_eq (q : RQueue) (v : Val)
    (hv : ∀ es, v ≠ Val.vdict es) : handleVal q v = q := by
  cases v with
  | vdict es => exact absurd rfl (hv es)
  | vnull => rfl
  | vbool b => rfl
  | vint n => rfl
  | vstr s => rfl
  | vlist xs => rfl

theorem handleVal_nomatch (q : RQueue) (v : Val) (rid : Int)
    (hm : vRespFor v rid = none) :
    qlookup (handleVal q v) rid = qlookup q rid := by
  cases v with
  | vdict es =>
      have hr : respId es ≠ some rid := by
        intro hr
        simp [vRespFor, hr] at hm
      rw [handleVal_vdict]
      cases hri : respId es with
      | none => rfl
      | some rid' =>
          have hne : rid' ≠ rid := by
            intro h
            exact hr (by rw [hri, h])
          by_cases hs : (qlookup q rid').isSome <;>
            simp [hs, qlookup_qappend_other q rid' rid _ (Ne.symm hne)]
  | vnull => rfl
  | vbool b => rfl
  | vint n => rfl
  | vstr s => rfl
  | vlist xs => rfl

theorem handleVal_noslot (q : RQueue) (v w : Val) (rid : Int)
    (hm : vRespFor v rid = some w) (hl : qlookup q rid = none) :
    handleVal q v = q := by
  cases v with
  | vdict es =>
      by_cases hr : respId es = some rid
      · rw [handleVal_vdict, hr]
        simp [hl]
      · simp [vRespFor, hr] at hm
  | vnull => simp [vRespFor] at hm
  | vbool b => simp [vRespFor] at hm
  | vint n => simp [vRespFor] at hm
  | vstr s => simp [vRespFor] at hm
  | vlist xs => simp [vRespFor] at hm

theorem handle_noslot (q : RQueue) (c : Content) (w : Val) (rid : Int)
    (hm : contentRespFor c rid = some w) (hl : qlookup q rid = none) :
    handle_custom_msg q c = q := by
  rw [handle_decomp]
  rw [contentRespFor_eq] at hm
  cases hd : decodedVal c with
  | none => rfl
  | some v =>
      rw [hd] at hm
      exact handleVal_noslot q v w rid hm hl

theorem qlookup_foldl_batch (batch : List Content) (q : RQueue) (rid : Int)
    (acc : List Val) (h : qlookup q rid = some acc) :
    qlookup (batch.foldl handle_custom_msg q) rid =
      some (acc ++ batch.filterMap (fun c => contentRespFor c rid)) := by
  induction batch generalizing q acc with
  | nil => simpa using h
  | cons c cs ih =>
      rcases hc : contentRespFor c rid with _ | w
      · have hstep : qlookup (handle_custom_msg q c) rid = some acc := by
          rw [handle_decomp]
          rw [contentRespFor_eq] at hc
          cases hd : decodedVal c with
          | none => exact h
          | some v =>
              rw [hd] at hc
              show qlookup (handleVal q v) rid = some acc
              rw [handleVal_nomatch _ _ _ hc]
              exact h
        have hrec := ih (handle_custom_msg q c) acc hstep
        simp only [List.foldl_cons, List.filterMap_cons, hc]
        exact hrec
      · have hstep : qlookup (handle_custom_msg q c) rid = some (acc ++ [w]) := by
          rw [handle_decomp]
          rw [contentRespFor_eq] at hc
          cases hd : decodedVal c with
          | none =>
              rw [hd] at hc
              simp at hc
          | some v =>
              rw [hd] at hc
              obtain ⟨heq, hwv⟩ := handleVal_match q v w acc rid hc h
              show qlookup (handleVal q v) rid = some (acc ++ [w])
              rw [heq]
              rw [hwv]
              rw [qlookup_qappend_self, h]
              rfl
        have hrec := ih (handle_custom_msg q c) (acc ++ [w]) hstep
        simp only [List.foldl_cons, List.filterMap_cons, hc]
        simpa [List.append_assoc] using hrec

theorem firstDelivery_cons (b : List Content) (rest : List (List Content))
    (rid : Int) :
    firstDelivery (b :: rest) rid =
      match b.filterMap (fun c => contentRespFor c rid) with
      | [] => firstDelivery rest rid
      | r :: _ => some r := by
  unfold firstDelivery
  rcases hb : b.filterMap (fun c => contentRespFor c rid) with _ | ⟨r, tl⟩
  · simp [hb]
  · simp [hb]

theorem wait_loop_spec (sched : List (List Content)) (rid : Int) (q : RQueue)
    (h : qlookup q rid = some []) :
    (∀ r, firstDelivery sched rid = some r → (wait_loop sched rid q).1 = .ok r) ∧
    (firstDelivery sched rid = none → (wait_loop sched rid q).1 = .error ⟨rid⟩) ∧
    qlookup (wait_loop sched rid q).2 rid = none := by
  induction sched generalizing q with
  | nil =>
      refine ⟨?_, ?_, ?_⟩
      · intro r hr
        simp [firstDelivery] at hr
      · intro _
        rfl
      · exact qlookup_qpop_self q rid
  | cons batch rest ih =>
      have hq1 := qlookup_foldl_batch batch q rid [] h
      rcases hb : batch.filterMap (fun c => contentRespFor c rid) with _ | ⟨r, tl⟩
      · rw [hb] at hq1
        simp only [List.nil_append] at hq1
        have hrec := ih (batch.foldl handle_custom_msg q) hq1
        have hfd : firstDelivery (batch :: rest) rid = firstDelivery rest rid := by
          rw [firstDelivery_cons, hb]
        have hloop : wait_loop (batch :: rest) rid q =
            wait_loop rest rid (batch.foldl handle_custom_msg q) := by
          show (match qlookup (batch.foldl handle_custom_msg q) rid with
                | some (r :: tail) =>
                    (Except.ok r,
                      qpop (qset (batch.foldl handle_custom_msg q) rid tail) rid)
                | _ => wait_loop rest rid (batch.foldl handle_custom_msg q)) =
              wait_loop rest rid (batch.foldl handle_custom_msg q)
          rw [hq1]
        rw [hfd, hloop]
        exact hrec
      · rw [hb] at hq1
        simp only [List.nil_append] at hq1
        have hfd : firstDelivery (batch :: rest) rid = some r := by
          rw [firstDelivery_cons, hb]
        have hloop : wait_loop (batch :: rest) rid q =
            (.ok r, qpop (qset (batch.foldl handle_custom_msg q) rid tl) rid) := by
          show (match qlookup (batch.foldl handle_custom_msg q) rid with
                | some (r :: tail) =>
                    (Except.ok r,
                      qpop (qset (batch.foldl handle_custom_msg q) rid tail) rid)
                | _ => wait_loop rest rid (batch.foldl handle_custom_msg q)) =
              (.ok r, qpop (qset (batch.foldl handle_custom_msg q) rid tl) rid)
          rw [hq1]
        refine ⟨?_, ?_, ?_⟩
        · intro r' hr'
          rw [hfd] at hr'
          injection hr' with hrr
          rw [hloop, hrr]
        · intro hnone
          rw [hfd] at hnone
          simp at hnone
        · rw [hloop]
          exact qlookup_qpop_self _ rid

theorem issued_ids_eq_range' (c n : Nat) :
    issued_ids c n = List.range' (c + 1) n := by
  induction n generalizing c with
  | zero => rfl
  | succ n ih =>
      rw [List.range'_succ]
      simpa [issued_ids, send_cmd_issue] using ih (c + 1)

/-! ## Claim theorems for the correlator -/

/-- C1: for a request id registered by `_wait_for_response`, a matching
response delivered by `_handle_custom_msg` before the timeout is
returned exactly as delivered; if the deadline elapses with no matching
delivery the call raises `TimeoutError` naming the request id; on both
exit paths the `finally` block removes the waiting slot, so a delivery
for that id arriving after the return finds no slot, raises nothing,
and leaves the scene's state unchanged. -/
theorem wait_for_response_correct (sched : List (List Content)) (rid : Int)
    (q0 : RQueue) :
    (∀ r, firstDelivery sched rid = some r →
      (wait_for_response sched rid q0).1 = .ok r) ∧
    (firstDelivery sched rid = none →
      (wait_for_response sched rid q0).1 = .error ⟨rid⟩) ∧
    qlookup (wait_for_response sched rid q0).2 rid = none ∧
    (∀ c w, contentRespFor c rid = some w →
      handle_custom_msg (wait_for_response sched rid q0).2 c =
        (wait_for_response sched rid q0).2) := by
  have h0 : qlookup (qset q0 rid []) rid = some [] := qlookup_qset_self q0 rid []
  have hspec := wait_loop_spec sched rid (qset q0 rid []) h0
  exact ⟨hspec.1, hspec.2.1, hspec.2.2, fun c w hm =>
    handle_noslot _ c w rid hm hspec.2.2⟩

/-- Witness for C1: a response for request id 1 delivered in the first
polling interval is returned exactly, and the slot is gone afterwards. -/
theorem wait_for_response_correct_witness :
    (wait_for_response
        [[Content.dict [("id", Val.vint 1), ("result", Val.vstr "ok")]]] 1 []).1 =
      .ok (Val.vdict [("id", Val.vint 1), ("result", Val.vstr "ok")]) ∧
    qlookup
      (wait_for_response
        [[Content.dict [("id", Val.vint 1), ("result", Val.vstr "ok")]]] 1 []).2 1 =
      none :=
  ⟨(wait_for_response_correct
      [[Content.dict [("id", Val.vint 1), ("result", Val.vstr "ok")]]] 1 []).1
      (Val.vdict [("id", Val.vint 1), ("result", Val.vstr "ok")]) rfl,
   (wait_for_response_correct
      [[Content.dict [("id", Val.vint 1), ("result", Val.vstr "ok")]]] 1 []).2.2.1⟩

/-- C2: request ids assigned by successive `send_cmd` invocations on
one scene (whose counter starts at 0) form the strictly increasing
range `1, 2, ..., n` — pairwise distinct and never reused; the lock
serializes concurrent invocations into this sequential model. -/
theorem send_cmd_ids_strictly_increasing (n : Nat) :
    issued_ids 0 n = List.range' 1 n ∧
    (issued_ids 0 n).Pairwise (· < ·) ∧
    (issued_ids 0 n).Nodup := by
  refine ⟨issued_ids_eq_range' 0 n, ?_, ?_⟩
  · rw [issued_ids_eq_range' 0 n]
    exact List.pairwise_lt_range' 1 n
  · rw [issued_ids_eq_range' 0 n]
    exact List.nodup_range' 1 n

/-- C3: `_handle_custom_msg` returns normally on every inbound payload
(the model's handler is a total function because every exception path
is caught and logged), and every malformed or unmatched payload is
dropped with no effect on the scene's state: undecodable payloads,
payloads that decode to a non-mapping, responses without a usable id,
and responses whose id has no registered waiting slot all leave the
response queue exactly as it was. -/
theorem handle_custom_msg_safe (q : RQueue) (c : Content) :
    (decodedVal c = none → handle_custom_msg q c = q) ∧
    (∀ v, decodedVal c = some v → (∀ es, v ≠ Val.vdict es) →
      handle_custom_msg q c = q) ∧
    (∀ es, decodedVal c = some (Val.vdict es) → respId es = none →
      handle_custom_msg q c = q) ∧
    (∀ es rid, decodedVal c = some (Val.vdict es) → respId es = some rid →
      qlookup q rid = none → handle_custom_msg q c = q) := by
  refine ⟨?_, ?_, ?_, ?_⟩
  · intro hd
    rw [handle_decomp, hd]
  · intro v hd hv
    rw [handle_decomp, hd]
    exact handleVal_nondict_eq q v hv
  · intro es hd hri
    rw [handle_decomp, hd]
    show handleVal q (Val.vdict es) = q
    rw [handleVal_vdict, hri]
  · intro es rid hd hri hl
    rw [handle_decomp, hd]
    show handleVal q (Val.vdict es) = q
    rw [handleVal_vdict, hri]
    simp [hl]

/-- Witness for C3: an undecodable byte payload, a non-mapping payload,
an id-less response and an unmatched response are all dropped without
touching a concrete nonempty queue. -/
theorem handle_custom_msg_safe_witness :
    handle_custom_msg [(1, [])] (Content.bytes (.error ())) = [(1, [])] ∧
    handle_custom_msg [(1, [])] (Content.str (.ok (Val.vlist []))) = [(1, [])] ∧
    handle_custom_msg [(1, [])] (Content.dict [("result", Val.vnull)]) = [(1, [])] ∧
    handle_custom_msg [(1, [])] (Content.dict [("id", Val.vint 7)]) = [(1, [])] :=
  ⟨(handle_custom_msg_safe [(1, [])] (Content.bytes (.error ()))).1 rfl,
   (handle_custom_msg_safe [(1, [])] (Content.str (.ok (Val.vlist [])))).2.1
      (Val.vlist []) rfl (fun es h => by cases h),
   (handle_custom_msg_safe [(1, [])] (Content.dict [("result", Val.vnull)])).2.2.1
      [("result", Val.vnull)] rfl rfl,
   (handle_custom_msg_safe [(1, [])] (Content.dict [("id", Val.vint 7)])).2.2.2
      [("id", Val.vint 7)] 7 rfl rfl rfl⟩

theorem dlookupV_eq_none (d : List (String × Val)) (k : String)
    (h : k ∉ keysOf d) : dlookupV d k = none := by
  induction d with
  | nil => rfl
  | cons e rest ih =>
      obtain ⟨a, b⟩ := e
      have hne : a ≠ k := by
        intro he
        exact h (by simp [keysOf, he])
      have hrest : k ∉ keysOf rest := by
        intro hm
        exact h (by simp [keysOf] at hm ⊢; exact Or.inr hm)
      simp [dlookupV, hne, ih hrest]

theorem buildDrawBlocks_lookup (a : Val) (n : String) :
    ∀ (bes acc : List (String × Val)), (keysOf bes).Nodup →
    (∀ k, k ∈ keysOf bes → dlookupV acc k = none) →
    dlookupV (buildDrawBlocks a acc bes) n =
      blockOut a n (dlookupV acc n) (dlookupV bes n)
  | [], acc, _, _ => rfl
  | (k, v) :: rest, acc, hnd, hdisj => by
      have hnd0 : k ∉ keysOf rest ∧ (keysOf rest).Nodup := by
        rw [show keysOf ((k, v) :: rest) = k :: keysOf rest from rfl] at hnd
        exact List.nodup_cons.mp hnd
      have hdisj' : ∀ k', k' ∈ keysOf rest → dlookupV acc k' = none := by
        intro k' h
        exact hdisj k' (by simp [keysOf] at h ⊢; exact Or.inr h)
      cases v with
      | vdict es =>
          have hdisj2 : ∀ k', k' ∈ keysOf rest →
              dlookupV (dsetV acc k (if k = "atoms" then a else Val.vdict es)) k' =
                none := by
            intro k' h
            have hne : k' ≠ k := fun he => hnd0.1 (he ▸ h)
            rw [dlookupV_dsetV_other acc k k' _ hne]
            exact hdisj' k' h
          have hrec := buildDrawBlocks_lookup a n rest
            (dsetV acc k (if k = "atoms" then a else Val.vdict es)) hnd0.2 hdisj2
          by_cases hn : k = n
          · subst hn
            rw [dlookupV_eq_none rest k hnd0.1] at hrec
            rw [dlookupV_dsetV_self] at hrec
            simp only [dlookupV, if_pos rfl]
            exact hrec
          · rw [dlookupV_dsetV_other acc k n _ (fun he => hn he.symm)] at hrec
            simp only [dlookupV, if_neg hn]
            exact hrec
      | vnull =>
          have hrec := buildDrawBlocks_lookup a n rest acc hnd0.2 hdisj'
          by_cases hn : k = n
          · subst hn
            rw [dlookupV_eq_none rest k hnd0.1] at hrec
            simp only [dlookupV, if_pos rfl]
            exact hrec
          · simp only [dlookupV, if_neg hn]
            exact hrec
      | vbool b =>
          have hrec := buildDrawBlocks_lookup a n rest acc hnd0.2 hdisj'
          by_cases hn : k = n
          · subst hn
            rw [dlookupV_eq_none rest k hnd0.1] at hrec
            simp only [dlookupV, if_pos rfl]
            exact hrec
          · simp only [dlookupV, if_neg hn]
            exact hrec
      | vint i =>
          have hrec := buildDrawBlocks_lookup a n rest acc hnd0.2 hdisj'
          by_cases hn : k = n
          · subst hn
            rw [dlookupV_eq_none rest k hnd0.1] at hrec
            simp only [dlookupV, if_pos rfl]
            exact hrec
          · simp only [dlookupV, if_neg hn]
            exact hrec
      | vstr s =>
          have hrec := buildDrawBlocks_lookup a n rest acc hnd0.2 hdisj'
          by_cases hn : k = n
          · subst hn
            rw [dlookupV_eq_none rest k hnd0.1] at hrec
            simp only [dlookupV, if_pos rfl]
            exact hrec
          · simp only [dlookupV, if_neg hn]
            exact hrec
      | vlist xs =>
          have hrec := buildDrawBlocks_lookup a n rest acc hnd0.2 hdisj'
          by_cases hn : k = n
          · subst hn
            rw [dlookupV_eq_none rest k hnd0.1] at hrec
            simp only [dlookupV, if_pos rfl]
            exact hrec
          · simp only [dlookupV, if_neg hn]
            exact hrec

/-- C4 (amended): for every frame accepted by `draw_frame` whose atoms
block carries an N×3 `xyz` array and does not already expose all of
`x`, `y`, `z` (in which case `_normalize_atoms_block` returns the
block unchanged, `xyz` included), the outgoing `frameData` has an
atoms block whose `x`, `y`, `z` are sequences of length N with no
residual `xyz` key, every other mapping-valued block of the input is
passed through unchanged, and non-mapping blocks are skipped
silently. -/
theorem draw_frame_normalizes_xyz
    (fes bes aes : List (String × Val)) (xyzV : Val)
    (rows : List (Val × Val × Val)) (style : String)
    (aR bR : Val) (im : Bool)
    (hb : dlookupV fes "blocks" = some (.vdict bes))
    (ha : dlookupV bes "atoms" = some (.vdict aes))
    (hxyzonly : (hasK aes "x" && hasK aes "y" && hasK aes "z") = false)
    (hxyz : dlookupV aes "xyz" = some xyzV)
    (hmat : asMatrixN3 xyzV = some rows)
    (hnd : (keysOf bes).Nodup) :
    ∃ bl, outBlocks (draw_frame (.vdict fes) style aR bR im) = some bl ∧
      (∃ aout, dlookupV bl "atoms" = some (.vdict aout) ∧
        vlen (dlookupV aout "x") = some rows.length ∧
        vlen (dlookupV aout "y") = some rows.length ∧
        vlen (dlookupV aout "z") = some rows.length ∧
        dlookupV aout "xyz" = none) ∧
      (∀ n v, n ≠ "atoms" → dlookupV bes n = some (.vdict v) →
        dlookupV bl n = some (.vdict v)) ∧
      (∀ n v, n ≠ "atoms" → dlookupV bes n = some v →
        (∀ es, v ≠ .vdict es) → dlookupV bl n = none) := by
  have hnorm : normalize_atoms_block (.vdict aes) =
      .ok (dpopV
        (dsetV (dsetV (dsetV aes "x" (colX rows)) "y" (colY rows))
          "z" (colZ rows)) "xyz") := by
    simp [normalize_atoms_block, hxyzonly, hxyz, hmat]
  have hout : outBlocks (draw_frame (.vdict fes) style aR bR im) =
      some (buildDrawBlocks
        (.vdict (dpopV
          (dsetV (dsetV (dsetV aes "x" (colX rows)) "y" (colY rows))
            "z" (colZ rows)) "xyz")) [] bes) := by
    simp only [draw_frame, hb, ha, hnorm, outBlocks]
    by_cases hm : (im && hasK fes "metadata") = true
    · simp [hm, dlookupV]
    · simp [hm, dlookupV]
  refine ⟨_, hout, ⟨dpopV
      (dsetV (dsetV (dsetV aes "x" (colX rows)) "y" (colY rows))
        "z" (colZ rows)) "xyz", ?_, ?_, ?_, ?_, ?_⟩, ?_, ?_⟩
  · have h1 := buildDrawBlocks_lookup
      (.vdict (dpopV
        (dsetV (dsetV (dsetV aes "x" (colX rows)) "y" (colY rows))
          "z" (colZ rows)) "xyz")) "atoms" bes [] hnd (fun k _ => rfl)
    rw [ha] at h1
    simpa [blockOut] using h1
  · rw [dlookupV_dpopV_other _ _ _ (by decide)]
    rw [dlookupV_dsetV_other _ _ _ _ (by decide)]
    rw [dlookupV_dsetV_other _ _ _ _ (by decide)]
    rw [dlookupV_dsetV_self]
    simp [vlen, colX]
  · rw [dlookupV_dpopV_other _ _ _ (by decide)]
    rw [dlookupV_dsetV_other _ _ _ _ (by decide)]
    rw [dlookupV_dsetV_self]
    simp [vlen, colY]
  · rw [dlookupV_dpopV_other _ _ _ (by decide)]
    rw [dlookupV_dsetV_self]
    simp [vlen, colZ]
  · exact dlookupV_dpopV_self _ "xyz"
  · intro n v hn hv
    have h1 := buildDrawBlocks_lookup
      (.vdict (dpopV
        (dsetV (dsetV (dsetV aes "x" (colX rows)) "y" (colY rows))
          "z" (colZ rows)) "xyz")) n bes [] hnd (fun k _ => rfl)
    rw [hv] at h1
    simpa [blockOut, hn] using h1
  · intro n v hn hv hvd
    have h1 := buildDrawBlocks_lookup
      (.vdict (dpopV
        (dsetV (dsetV (dsetV aes "x" (colX rows)) "y" (colY rows))
          "z" (colZ rows)) "xyz")) n bes [] hnd (fun k _ => rfl)
    rw [hv] at h1
    cases v with
    | vdict es => exact absurd rfl (hvd es)
    | vnull => simpa [blockOut, dlookupV] using h1
    | vbool b => simpa [blockOut, dlookupV] using h1
    | vint i => simpa [blockOut, dlookupV] using h1
    | vstr s => simpa [blockOut, dlookupV] using h1
    | vlist xs => simpa [blockOut, dlookupV] using h1

/-- Witness for C4 (amended): a one-atom frame whose atoms block holds
only `xyz = [[1,2,3]]`, plus a dict `bonds` block and a non-dict
`junk` block. -/
theorem draw_frame_normalizes_xyz_witness :
    ∃ bl, outBlocks (draw_frame
        (.vdict [("blocks", .vdict
          [("atoms", .vdict [("xyz", .vlist [.vlist [.vint 1, .vint 2, .vint 3]])]),
           ("bonds", .vdict [("i", .vlist [])]),
           ("junk", .vstr "skip")])])
        "ball_and_stick" .vnull .vnull false) = some bl ∧
      (∃ aout, dlookupV bl "atoms" = some (.vdict aout) ∧
        vlen (dlookupV aout "x") = some 1 ∧
        vlen (dlookupV aout "y") = some 1 ∧
        vlen (dlookupV aout "z") = some 1 ∧
        dlookupV aout "xyz" = none) ∧
      (∀ n v, n ≠ "atoms" →
        dlookupV [("atoms", Val.vdict [("xyz", Val.vlist [.vlist [.vint 1, .vint 2, .vint 3]])]),
           ("bonds", Val.vdict [("i", Val.vlist [])]),
           ("junk", Val.vstr "skip")] n = some (.vdict v) →
        dlookupV bl n = some (.vdict v)) ∧
      (∀ n v, n ≠ "atoms" →
        dlookupV [("atoms", Val.vdict [("xyz", Val.vlist [.vlist [.vint 1, .vint 2, .vint 3]])]),
           ("bonds", Val.vdict [("i", Val.vlist [])]),
           ("junk", Val.vstr "skip")] n = some v →
        (∀ es, v ≠ .vdict es) → dlookupV bl n = none) :=
  draw_frame_normalizes_xyz
    [("blocks", .vdict
      [("atoms", .vdict [("xyz", .vlist [.vlist [.vint 1, .vint 2, .vint 3]])]),
       ("bonds", .vdict [("i", .vlist [])]),
       ("junk", .vstr "skip")])]
    [("atoms", .vdict [("xyz", .vlist [.vlist [.vint 1, .vint 2, .vint 3]])]),
     ("bonds", .vdict [("i", .vlist [])]),
     ("junk", .vstr "skip")]
    [("xyz", .vlist [.vlist [.vint 1, .vint 2, .vint 3]])]
    (.vlist [.vlist [.vint 1, .vint 2, .vint 3]])
    [(.vint 1, .vint 2, .vint 3)]
    "ball_and_stick" .vnull .vnull false
    rfl rfl rfl rfl rfl (by decide)

/-- Counterexample for C4 as stated: an atoms block that carries a
2×3 `xyz` array and also all of `x`, `y`, `z` (each of length 1) is
accepted by `draw_frame`, but `_normalize_atoms_block` returns it via
the early `x`/`y`/`z` path, so the outgoing atoms block keeps the
residual `xyz` key and its `x` has length 1, not 2. -/
theorem draw_frame_xyz_residual_counterexample :
    asMatrixN3 (Val.vlist
      [.vlist [.vint 1, .vint 1, .vint 1], .vlist [.vint 2, .vint 2, .vint 2]]) =
      some [(.vint 1, .vint 1, .vint 1), (.vint 2, .vint 2, .vint 2)] ∧
    outBlocks (draw_frame
      (.vdict [("blocks", .vdict
        [("atoms", .vdict
          [("x", .vlist [.vint 0]), ("y", .vlist [.vint 0]), ("z", .vlist [.vint 0]),
           ("xyz", .vlist
             [.vlist [.vint 1, .vint 1, .vint 1],
              .vlist [.vint 2, .vint 2, .vint 2]])])])])
      "ball_and_stick" .vnull .vnull false) =
      some [("atoms", .vdict
        [("x", .vlist [.vint 0]), ("y", .vlist [.vint 0]), ("z", .vlist [.vint 0]),
         ("xyz", .vlist
           [.vlist [.vint 1, .vint 1, .vint 1],
            .vlist [.vint 2, .vint 2, .vint 2]])])] ∧
    vlen (dlookupV
      [("x", Val.vlist [.vint 0]), ("y", Val.vlist [.vint 0]), ("z", Val.vlist [.vint 0]),
       ("xyz", Val.vlist
         [.vlist [.vint 1, .vint 1, .vint 1],
          .vlist [.vint 2, .vint 2, .vint 2]])] "x") = some 1 ∧
    hasK [("x", Val.vlist [.vint 0]), ("y", Val.vlist [.vint 0]), ("z", Val.vlist [.vint 0]),
       ("xyz", Val.vlist
         [.vlist [.vint 1, .vint 1, .vint 1],
          .vlist [.vint 2, .vint 2, .vint 2]])] "xyz" = true :=
  ⟨rfl, rfl, rfl, rfl⟩

/-- C5: every malformed frame shape — conversion not a dict, no
`blocks` entry, `blocks` not a mapping, no `atoms` block, `atoms` not
a mapping, `atoms` with neither all of `x`,`y`,`z` nor an `xyz` key,
or an `xyz` that is not an N×3 matrix — makes `draw_frame` raise a
`ValueError` synchronously with zero transport sends. -/
theorem draw_frame_rejects_bad_shapes (fd : Val) (style : String)
    (aR bR : Val) (im : Bool) :
    ((∀ fes, fd ≠ .vdict fes) →
      failsBeforeSend (draw_frame fd style aR bR im)) ∧
    (∀ fes, fd = .vdict fes → dlookupV fes "blocks" = none →
      failsBeforeSend (draw_frame fd style aR bR im)) ∧
    (∀ fes bv, fd = .vdict fes → dlookupV fes "blocks" = some bv →
      (∀ bes, bv ≠ .vdict bes) →
      failsBeforeSend (draw_frame fd style aR bR im)) ∧
    (∀ fes bes, fd = .vdict fes → dlookupV fes "blocks" = some (.vdict bes) →
      dlookupV bes "atoms" = none →
      failsBeforeSend (draw_frame fd style aR bR im)) ∧
    (∀ fes bes av, fd = .vdict fes → dlookupV fes "blocks" = some (.vdict bes) →
      dlookupV bes "atoms" = some av → (∀ aes, av ≠ .vdict aes) →
      failsBeforeSend (draw_frame fd style aR bR im)) ∧
    (∀ fes bes aes, fd = .vdict fes → dlookupV fes "blocks" = some (.vdict bes) →
      dlookupV bes "atoms" = some (.vdict aes) →
      (hasK aes "x" && hasK aes "y" && hasK aes "z") = false →
      dlookupV aes "xyz" = none →
      failsBeforeSend (draw_frame fd style aR bR im)) ∧
    (∀ fes bes aes xyzV, fd = .vdict fes →
      dlookupV fes "blocks" = some (.vdict bes) →
      dlookupV bes "atoms" = some (.vdict aes) →
      (hasK aes "x" && hasK aes "y" && hasK aes "z") = false →
      dlookupV aes "xyz" = some xyzV → asMatrixN3 xyzV = none →
      failsBeforeSend (draw_frame fd style aR bR im)) := by
  refine ⟨?_, ?_, ?_, ?_, ?_, ?_, ?_⟩
  · intro hfd
    cases fd with
    | vdict fes => exact absurd rfl (hfd fes)
    | vnull => exact ⟨⟨_, rfl⟩, rfl⟩
    | vbool b => exact ⟨⟨_, rfl⟩, rfl⟩
    | vint n => exact ⟨⟨_, rfl⟩, rfl⟩
    | vstr s => exact ⟨⟨_, rfl⟩, rfl⟩
    | vlist xs => exact ⟨⟨_, rfl⟩, rfl⟩
  · intro fes hfd hb
    subst hfd
    have hd : draw_frame (.vdict fes) style aR bR im =
        .error (.valueError "Frame must contain blocks data") := by
      simp [draw_frame, hb]
    exact ⟨⟨_, hd⟩, by rw [hd]; rfl⟩
  · intro fes bv hfd hb hbv
    subst hfd
    have hd : draw_frame (.vdict fes) style aR bR im =
        .error (.valueError "Frame blocks must be a dictionary") := by
      cases bv with
      | vdict bes => exact absurd rfl (hbv bes)
      | vnull => simp [draw_frame, hb]
      | vbool b => simp [draw_frame, hb]
      | vint n => simp [draw_frame, hb]
      | vstr s => simp [draw_frame, hb]
      | vlist xs => simp [draw_frame, hb]
    exact ⟨⟨_, hd⟩, by rw [hd]; rfl⟩
  · intro fes bes hfd hb ha
    subst hfd
    have hd : draw_frame (.vdict fes) style aR bR im =
        .error (.valueError "Frame must contain atoms block to draw") := by
      simp [draw_frame, hb, ha]
    exact ⟨⟨_, hd⟩, by rw [hd]; rfl⟩
  · intro fes bes av hfd hb ha hav
    subst hfd
    have hnorm : normalize_atoms_block av =
        .error (.valueError "Atoms block must be a dictionary") := by
      cases av with
      | vdict aes => exact absurd rfl (hav aes)
      | vnull => rfl
      | vbool b => rfl
      | vint n => rfl
      | vstr s => rfl
      | vlist xs => rfl
    have hd : draw_frame (.vdict fes) style aR bR im =
        .error (.valueError "Atoms block must be a dictionary") := by
      simp [draw_frame, hb, ha, hnorm]
    exact ⟨⟨_, hd⟩, by rw [hd]; rfl⟩
  · intro fes bes aes hfd hb ha hxyzonly hxyz
    subst hfd
    have hnorm : normalize_atoms_block (.vdict aes) =
        .error (.valueError "Atoms block must contain x, y, z coordinates to draw") := by
      simp [normalize_atoms_block, hxyzonly, hxyz]
    have hd : draw_frame (.vdict fes) style aR bR im =
        .error (.valueError "Atoms block must contain x, y, z coordinates to draw") := by
      simp [draw_frame, hb, ha, hnorm]
    exact ⟨⟨_, hd⟩, by rw [hd]; rfl⟩
  · intro fes bes aes xyzV hfd hb ha hxyzonly hxyz hmat
    subst hfd
    have hnorm : normalize_atoms_block (.vdict aes) =
        .error (.valueError "Atoms xyz must be an Nx3 array") := by
      simp [normalize_atoms_block, hxyzonly, hxyz, hmat]
    have hd : draw_frame (.vdict fes) style aR bR im =
        .error (.valueError "Atoms xyz must be an Nx3 array") := by
      simp [draw_frame, hb, ha, hnorm]
    exact ⟨⟨_, hd⟩, by rw [hd]; rfl⟩

/-- Witness for C5: a frame whose atoms block has neither `x`,`y`,`z`
nor `xyz`, and a frame with no `blocks` entry, both fail with a
`ValueError` and zero sends. -/
theorem draw_frame_rejects_bad_shapes_witness :
    failsBeforeSend (draw_frame
      (.vdict [("blocks", .vdict [("atoms", .vdict [("element", .vlist [])])])])
      "ball_and_stick" .vnull .vnull false) ∧
    failsBeforeSend (draw_frame (.vdict [("metadata", .vnull)])
      "ball_and_stick" .vnull .vnull false) :=
  ⟨(draw_frame_rejects_bad_shapes
      (.vdict [("blocks", .vdict [("atoms", .vdict [("element", .vlist [])])])])
      "ball_and_stick" .vnull .vnull false).2.2.2.2.2.1
      [("blocks", .vdict [("atoms", .vdict [("element", .vlist [])])])]
      [("atoms", .vdict [("element", .vlist [])])]
      [("element", .vlist [])] rfl rfl rfl rfl rfl,
   (draw_frame_rejects_bad_shapes (.vdict [("metadata", .vnull)])
      "ball_and_stick" .vnull .vnull false).2.1
      [("metadata", .vnull)] rfl rfl⟩

/-- C6 (amended): `draw_frame` never inspects the style argument at
runtime (the `Literal` annotation is unenforced), so for every frame
that passes normalization the command is sent — exactly one send —
with whatever style string was supplied, enumerated or not; an
unknown style does not fail locally before sending. -/
theorem draw_frame_sends_any_style
    (fes bes : List (String × Val)) (atomsV : Val) (A : List (String × Val))
    (style : String) (aR bR : Val) (im : Bool)
    (hb : dlookupV fes "blocks" = some (.vdict bes))
    (ha : dlookupV bes "atoms" = some atomsV)
    (hnorm : normalize_atoms_block atomsV = .ok A) :
    sentCount (draw_frame (.vdict fes) style aR bR im) = 1 ∧
    styleOfResult (draw_frame (.vdict fes) style aR bR im) =
      some (.vstr style) := by
  have hdraw : draw_frame (.vdict fes) style aR bR im = .ok
      [("draw_frame", Val.vdict
        [("frameData", Val.vdict
          (if im && hasK fes "metadata" then
            [("blocks", Val.vdict (buildDrawBlocks (.vdict A) [] bes)),
             ("metadata", (dlookupV fes "metadata").getD .vnull)]
          else
            [("blocks", Val.vdict (buildDrawBlocks (.vdict A) [] bes))])),
         ("options", Val.vdict
           [("atoms", Val.vdict [("radius", aR)]),
            ("bonds", Val.vdict [("radius", bR)]),
            ("style", Val.vstr style)])])] := by
    simp [draw_frame, hb, ha, hnorm]
  rw [hdraw]
  exact ⟨rfl, rfl⟩

/-- Witness for C6 (amended): a valid one-atom frame is sent even with
the non-enumerated style string "bogus". -/
theorem draw_frame_sends_any_style_witness :
    sentCount (draw_frame
      (.vdict [("blocks", .vdict [("atoms", .vdict
        [("x", .vlist [.vint 0]), ("y", .vlist [.vint 0]), ("z", .vlist [.vint 0])])])])
      "bogus" .vnull .vnull false) = 1 ∧
    styleOfResult (draw_frame
      (.vdict [("blocks", .vdict [("atoms", .vdict
        [("x", .vlist [.vint 0]), ("y", .vlist [.vint 0]), ("z", .vlist [.vint 0])])])])
      "bogus" .vnull .vnull false) = some (.vstr "bogus") :=
  draw_frame_sends_any_style
    [("blocks", .vdict [("atoms", .vdict
      [("x", .vlist [.vint 0]), ("y", .vlist [.vint 0]), ("z", .vlist [.vint 0])])])]
    [("atoms", .vdict
      [("x", .vlist [.vint 0]), ("y", .vlist [.vint 0]), ("z", .vlist [.vint 0])])]
    (.vdict [("x", .vlist [.vint 0]), ("y", .vlist [.vint 0]), ("z", .vlist [.vint 0])])
    [("x", .vlist [.vint 0]), ("y", .vlist [.vint 0]), ("z", .vlist [.vint 0])]
    "bogus" .vnull .vnull false rfl rfl rfl

/-- Counterexample for C6 as stated: with the style string "bogus" —
outside `{ball_and_stick, spacefill, wireframe}` — a valid frame is
still sent (one transport send carrying style "bogus"), so the
operation does not fail locally before sending. -/
theorem draw_frame_unknown_style_counterexample :
    ("bogus" ≠ "ball_and_stick" ∧ "bogus" ≠ "spacefill" ∧
      "bogus" ≠ "wireframe") ∧
    sentCount (draw_frame
      (.vdict [("blocks", .vdict [("atoms", .vdict
        [("x", .vlist []), ("y", .vlist []), ("z", .vlist [])])])])
      "bogus" .vnull .vnull false) = 1 ∧
    styleOfResult (draw_frame
      (.vdict [("blocks", .vdict [("atoms", .vdict
        [("x", .vlist []), ("y", .vlist []), ("z", .vlist [])])])])
      "bogus" .vnull .vnull false) = some (.vstr "bogus") :=
  ⟨⟨by decide, by decide, by decide⟩, rfl, rfl⟩

theorem categoryIncluded_eq (ds : List (String × Val)) (cat key : String)
    (h : dlookupV ds cat = none ∨
      ∃ ces, dlookupV ds cat = some (.vdict ces) ∧
        (dlookupV ces key = none ∨ ∃ l, dlookupV ces key = some (.vlist l))) :
    categoryIncluded ds cat key = .ok (decide (0 < entityCount ds cat key)) := by
  rcases h with h | ⟨ces, hc, hk⟩
  · simp [categoryIncluded, pyGet, h, truthy, entityCount]
  · rcases hk with hk | ⟨l, hk⟩
    · by_cases he : ces.isEmpty
      · simp [categoryIncluded, pyGet, hc, truthy, he, entityCount, hk]
      · simp [categoryIncluded, pyGet, hc, truthy, he, entityCount, hk, pyLen]
    · cases ces with
      | nil => simp [dlookupV] at hk
      | cons e tl =>
          simp [categoryIncluded, pyGet, hc, truthy, entityCount, hk, pyLen,
            List.isEmpty]

/-- C7 (amended): no `PeerError` exists anywhere in the code, and the
blocking operations never inspect the response's `error` field.  A
response carrying an `error` payload and no `result` is treated as the
data itself: `get_selected` returns a frame built from it (empty when
it has no `atoms`/`bonds` entries), `dump_frame` degrades to an empty
frame, and `snapshot` raises its generic format `ValueError` — the
peer-supplied message is never surfaced. -/
theorem call_ops_no_peer_error (res : List (String × Val))
    (b64 : String → List Nat)
    (herr : hasK res "error" = true)
    (hres : dlookupV res "result" = none)
    (hatoms : dlookupV res "atoms" = none)
    (hbonds : dlookupV res "bonds" = none)
    (hfd : dlookupV res "frameData" = none)
    (hdata : dlookupV res "data" = none) :
    get_selected_process (.vdict res) = .ok [] ∧
    dump_frame_process (.vdict res) = .ok (.vdict [], .vdict []) ∧
    snapshot_process b64 (.vdict res) =
      .error (.valueError "Unexpected response format from take_snapshot") := by
  have hdataOf : dataOf (.vdict res) = .vdict res := by simp [dataOf, hres]
  refine ⟨?_, ?_, ?_⟩
  · have hca : categoryIncluded res "atoms" "x" = .ok false := by
      simp [categoryIncluded, pyGet, hatoms, truthy]
    have hcb : categoryIncluded res "bonds" "bondId" = .ok false := by
      simp [categoryIncluded, pyGet, hbonds, truthy]
    simp only [get_selected_process, hdataOf, hca, hcb]
    rfl
  · simp [dump_frame_process, hdataOf, hfd]
  · simp [snapshot_process, hdataOf, hdata]

/-- Witness for C7 (amended): a concrete error-only response. -/
theorem call_ops_no_peer_error_witness :
    get_selected_process (.vdict [("error", .vdict [("message", .vstr "x")])]) =
      .ok [] ∧
    dump_frame_process (.vdict [("error", .vdict [("message", .vstr "x")])]) =
      .ok (.vdict [], .vdict []) ∧
    snapshot_process (fun _ => [])
        (.vdict [("error", .vdict [("message", .vstr "x")])]) =
      .error (.valueError "Unexpected response format from take_snapshot") :=
  call_ops_no_peer_error [("error", .vdict [("message", .vstr "x")])]
    (fun _ => []) rfl rfl rfl rfl rfl rfl

/-- Counterexample for C7 as stated: for the concrete peer response
`{"id": 1, "error": {"message": "boom"}}`, no operation raises any
peer-error condition carrying the message "boom": `get_selected`
returns a value (an empty frame) derived from the error-bearing
response, `dump_frame` returns an empty frame, and `snapshot` raises
only its generic format `ValueError`. -/
theorem call_ops_error_response_counterexample :
    hasK [("id", Val.vint 1), ("error", Val.vdict [("message", Val.vstr "boom")])]
      "error" = true ∧
    get_selected_process
      (.vdict [("id", .vint 1), ("error", .vdict [("message", .vstr "boom")])]) =
      .ok [] ∧
    dump_frame_process
      (.vdict [("id", .vint 1), ("error", .vdict [("message", .vstr "boom")])]) =
      .ok (.vdict [], .vdict []) ∧
    snapshot_process (fun _ => [])
      (.vdict [("id", .vint 1), ("error", .vdict [("message", .vstr "boom")])]) =
      .error (.valueError "Unexpected response format from take_snapshot") :=
  ⟨rfl, rfl, rfl, rfl⟩

/-- C8: a category (atoms or bonds) appears in the frame returned by
`get_selected` exactly when it has at least one entity (`len(x)` resp.
`len(bondId)` positive), and a reply with zero entities in both
categories yields an empty result rather than an error. -/
theorem get_selected_filters_empty_categories
    (res ds : List (String × Val))
    (hres : dlookupV res "result" = some (.vdict ds))
    (hA : dlookupV ds "atoms" = none ∨
      ∃ aes, dlookupV ds "atoms" = some (.vdict aes) ∧
        (dlookupV aes "x" = none ∨ ∃ l, dlookupV aes "x" = some (.vlist l)))
    (hB : dlookupV ds "bonds" = none ∨
      ∃ bes, dlookupV ds "bonds" = some (.vdict bes) ∧
        (dlookupV bes "bondId" = none ∨
          ∃ l, dlookupV bes "bondId" = some (.vlist l))) :
    ∃ bl, get_selected_process (.vdict res) = .ok bl ∧
      (hasK bl "atoms" = true ↔ 0 < entityCount ds "atoms" "x") ∧
      (hasK bl "bonds" = true ↔ 0 < entityCount ds "bonds" "bondId") ∧
      (entityCount ds "atoms" "x" = 0 → entityCount ds "bonds" "bondId" = 0 →
        bl = []) := by
  have hdataOf : dataOf (.vdict res) = .vdict ds := by simp [dataOf, hres]
  have hia := categoryIncluded_eq ds "atoms" "x" hA
  have hib := categoryIncluded_eq ds "bonds" "bondId" hB
  have hout0 : get_selected_process (.vdict res) = .ok
      ((if decide (0 < entityCount ds "atoms" "x") = true then
          [("atoms", pyGet ds "atoms")] else []) ++
       (if decide (0 < entityCount ds "bonds" "bondId") = true then
          [("bonds", pyGet ds "bonds")] else [])) := by
    simp only [get_selected_process, hdataOf, hia, hib]
    rfl
  have hout : get_selected_process (.vdict res) = .ok
      ((if 0 < entityCount ds "atoms" "x" then [("atoms", pyGet ds "atoms")]
        else []) ++
       (if 0 < entityCount ds "bonds" "bondId" then [("bonds", pyGet ds "bonds")]
        else [])) := by
    rw [hout0]
    simp [decide_eq_true_eq]
  refine ⟨_, hout, ?_, ?_, ?_⟩
  · by_cases h1 : 0 < entityCount ds "atoms" "x" <;>
      by_cases h2 : 0 < entityCount ds "bonds" "bondId" <;>
      simp [h1, h2, hasK, dlookupV]
  · by_cases h1 : 0 < entityCount ds "atoms" "x" <;>
      by_cases h2 : 0 < entityCount ds "bonds" "bondId" <;>
      simp [h1, h2, hasK, dlookupV]
  · intro hz1 hz2
    simp [hz1, hz2]

/-- Witness for C8: the spec's scenario — a reply with `atoms.x = []`
and `bonds.bondId = [7]` — yields a frame containing only a `bonds`
block; the explicit result is also computed. -/
theorem get_selected_filters_empty_categories_witness :
    (∃ bl, get_selected_process
        (.vdict [("result", .vdict
          [("atoms", .vdict [("x", .vlist [])]),
           ("bonds", .vdict [("bondId", .vlist [.vint 7])])])]) = .ok bl ∧
      (hasK bl "atoms" = true ↔
        0 < entityCount
          [("atoms", Val.vdict [("x", Val.vlist [])]),
           ("bonds", Val.vdict [("bondId", Val.vlist [.vint 7])])] "atoms" "x") ∧
      (hasK bl "bonds" = true ↔
        0 < entityCount
          [("atoms", Val.vdict [("x", Val.vlist [])]),
           ("bonds", Val.vdict [("bondId", Val.vlist [.vint 7])])] "bonds" "bondId") ∧
      (entityCount
          [("atoms", Val.vdict [("x", Val.vlist [])]),
           ("bonds", Val.vdict [("bondId", Val.vlist [.vint 7])])] "atoms" "x" = 0 →
        entityCount
          [("atoms", Val.vdict [("x", Val.vlist [])]),
           ("bonds", Val.vdict [("bondId", Val.vlist [.vint 7])])] "bonds" "bondId" = 0 →
        bl = [])) ∧
    get_selected_process
      (.vdict [("result", .vdict
        [("atoms", .vdict [("x", .vlist [])]),
         ("bonds", .vdict [("bondId", .vlist [.vint 7])])])]) =
      .ok [("bonds", .vdict [("bondId", .vlist [.vint 7])])] :=
  ⟨get_selected_filters_empty_categories
      [("result", .vdict
        [("atoms", .vdict [("x", .vlist [])]),
         ("bonds", .vdict [("bondId", .vlist [.vint 7])])])]
      [("atoms", .vdict [("x", .vlist [])]),
       ("bonds", .vdict [("bondId", .vlist [.vint 7])])]
      rfl
      (Or.inr ⟨[("x", .vlist [])], rfl, Or.inr ⟨[], rfl⟩⟩)
      (Or.inr ⟨[("bondId", .vlist [.vint 7])], rfl, Or.inr ⟨[.vint 7], rfl⟩⟩),
   rfl⟩

/-- C9: after registering scenes "a" and "b", `get_scene "a"` returns
the scene registered under "a" and `list_scenes` contains both names;
after the entry for "a" is removed (via `close` of the "a" scene),
`get_scene "a"` fails with a `KeyError` whose available-names list
contains "b" and not "a", and removing the already-absent name again
is a no-op on the registry. -/
theorem scene_registry_scenario :
    get_scene (register_scene (register_scene [] ⟨"a", 1⟩) ⟨"b", 2⟩) "a" =
      .ok 1 ∧
    list_scenes (register_scene (register_scene [] ⟨"a", 1⟩) ⟨"b", 2⟩) =
      ["a", "b"] ∧
    (close_scene (register_scene (register_scene [] ⟨"a", 1⟩) ⟨"b", 2⟩)
      ⟨"a", 1⟩).1 = [("b", 2)] ∧
    get_scene [("b", 2)] "a" = .error ⟨"a", ["b"]⟩ ∧
    ("b" ∈ (["b"] : List String) ∧ "a" ∉ (["b"] : List String)) ∧
    (close_scene [("b", 2)] ⟨"a", 1⟩).1 = [("b", 2)] :=
  ⟨rfl, rfl, rfl, rfl, ⟨by decide, by decide⟩, rfl⟩

/-- C10: constructing a second scene named "n" overwrites the registry
entry of the first without closing it (registration sends nothing);
calling `close()` on the first, superseded scene then deletes the
entry currently held by the second scene — `get_scene "n"` fails even
though the second scene was never closed — and the close sends a
`clear` command from the scene being closed (session id 1). -/
theorem close_superseded_scene_unregisters_successor :
    register_scene (register_scene [] ⟨"n", 1⟩) ⟨"n", 2⟩ = [("n", 2)] ∧
    (close_scene [("n", 2)] ⟨"n", 1⟩).1 = [] ∧
    (close_scene [("n", 2)] ⟨"n", 1⟩).2 = [("clear", 1)] ∧
    get_scene ((close_scene [("n", 2)] ⟨"n", 1⟩).1) "n" = .error ⟨"n", []⟩ :=
  ⟨rfl, rfl, rfl, rfl⟩

end Molvis

